import Mathlib

/-!
Shallow embedding of the SOP ("Standard Operating Procedure") export
pipeline of the march-web-app repository, together with proofs of the
layout/pagination properties stated in its specification.

The embedded source functions:
* `generateSOPPdf` / `paginate` — the landscape PDF generator of
  `src/utils/pdfUtils.ts` (first variant): per-step row-height
  computation, pagination loop with overflow test `> 180`, precondition
  checks and filename derivation.
* `getStepSymbol` / `pdfViewRow` — the print view of
  `src/components/PDFViewPage.tsx`.
* `directRow` — the table-row construction of `generatePdfDirect`.
* `portraitStep` / `createAndDownloadSopPdf` — the portrait generator
  (second variant of `src/utils/pdfUtils.ts`), with image resolution
  modelled as an injected `String → Option String` dependency.
-/

namespace SopApp

/-- The four annotation symbol kinds of `src/types/sop.ts`
(`SymbolType = 'quality' | 'correctness' | 'tip' | 'hazard'`). -/
inductive SymbolType where
  | quality
  | correctness
  | tip
  | hazard
deriving DecidableEq, Repr

/-- One SOP step, from `src/types/sop.ts` (`Step`).  Optional string
fields of the source are modelled as `String` with `""` standing for
absent (matching the JS truthiness checks of the source), and the
optional `symbolType` as `Option SymbolType`. -/
structure Step where
  title : String
  description : String
  symbolType : Option SymbolType
  reasonWhy : String
  imageUrl : String
  imageName : String
deriving DecidableEq, Repr

/-- SOP metadata, from `src/types/sop.ts` (`SOPMetadata`). -/
structure SOPMetadata where
  title : String
  author : String
  department : String
  approver : String
  createdDate : String
  approvalDate : String
  version : String
deriving DecidableEq, Repr

/-! ## Landscape generator (`generateSOPPdf`, first variant)

Embeds lines 12–296 of `src/utils/pdfUtils.ts`. -/

/-- Accumulator loop for `jsSplit`: chunks of characters between
occurrences of the separator. -/
def jsSplitAux (sep : Char) : List Char → List Char → List (List Char)
  | [], cur => [cur.reverse]
  | c :: rest, cur =>
    if c = sep then cur.reverse :: jsSplitAux sep rest []
    else jsSplitAux sep rest (c :: cur)

/-- JS `String.prototype.split` with a one-character separator, as used
by `description.split('\n')` in the source. -/
def jsSplit (s : String) (sep : Char) : List String :=
  (jsSplitAux sep s.data []).map String.mk

/-- JS `String.prototype.trim`: strips leading and trailing
whitespace. -/
def jsTrim (s : String) : String :=
  ⟨((s.data.dropWhile Char.isWhitespace).reverse.dropWhile
      Char.isWhitespace).reverse⟩

/-- Key points of a step: the source computes
`step.description ? step.description.split('\n').filter(Boolean) : []`.
Splitting the empty string yields `[""]`, which the filter removes, so
both source branches are this one expression. -/
def keyPoints (desc : String) : List String :=
  (jsSplit desc '\n').filter (fun l => l ≠ "")

/-- `numKeyPoints = Math.max(1, keyPoints.length)`. -/
def numKeyPoints (desc : String) : Nat :=
  max 1 (keyPoints desc).length

/-- `rowHeight = Math.max(30, 20 + (steps.length * 10))` — the base row
height of the landscape generator, which depends on the number of steps
in the whole list. -/
def baseRowHeight (numSteps : Nat) : Nat :=
  max 30 (20 + numSteps * 10)

/-- `calculatedRowHeight = Math.max(rowHeight, numKeyPoints * 25)`. -/
def calculatedRowHeight (numSteps : Nat) (desc : String) : Nat :=
  max (baseRowHeight numSteps) (numKeyPoints desc * 25)

/-- Usable vertical bottom of a landscape page: the source's overflow
test is `yPosition + calculatedRowHeight > 180`. -/
def pageUsableBottom : Nat := 180

/-- First row position on page one: `tableTop + 12 = 86 + 12`. -/
def firstPageRowStart : Nat := 98

/-- First row position on every continuation page:
`newTableTop + 12 = 30 + 12`. -/
def contPageRowStart : Nat := 42

/-- One placed table row of the landscape generator: the step index it
renders, the page it lands on, and the `yPosition` (top) and
`calculatedRowHeight` used by all of that row's drawing calls. -/
structure RowPlacement where
  stepIndex : Nat
  page : Nat
  top : Nat
  height : Nat
deriving DecidableEq, Repr

/-- The pagination loop of `generateSOPPdf` (lines 173–292): for each
step compute `calculatedRowHeight`; if `yPosition + h > 180` open a new
page and reset `yPosition` to `42`, place the row at the current
`yPosition`, then advance `yPosition` by the row height. -/
def paginateAux (numSteps : Nat) : List Step → Nat → Nat → Nat → List RowPlacement
  | [], _, _, _ => []
  | s :: rest, i, page, y =>
    let h := calculatedRowHeight numSteps s.description
    if y + h > pageUsableBottom then
      ⟨i, page + 1, contPageRowStart, h⟩ ::
        paginateAux numSteps rest (i + 1) (page + 1) (contPageRowStart + h)
    else
      ⟨i, page, y, h⟩ :: paginateAux numSteps rest (i + 1) page (y + h)

/-- Entry point of the pagination loop: the cursor starts at
`tableTop + 12` on page `0` and the base row height is taken from the
full list length. -/
def paginate (steps : List Step) : List RowPlacement :=
  paginateAux steps.length steps 0 0 firstPageRowStart

/-- JS `title.replace(/\s+/g, '_')`: every maximal run of whitespace
characters becomes a single underscore. -/
def collapseWsAux : Bool → List Char → List Char
  | _, [] => []
  | prevWs, c :: rest =>
    if c.isWhitespace then
      (if prevWs then [] else ['_']) ++ collapseWsAux true rest
    else
      c :: collapseWsAux false rest

/-- String wrapper for `collapseWsAux`. -/
def jsReplaceWsRuns (s : String) : String :=
  ⟨collapseWsAux false s.data⟩

/-- Filename of the landscape generator (line 295):
`` `${metadata.title.replace(/\s+/g, '_')}_SOP.pdf` ``. -/
def landscapeFilename (title : String) : String :=
  jsReplaceWsRuns title ++ "_SOP.pdf"

/-- `generateSOPPdf` precondition checks and result (lines 12–19 and
294–296): throws `'SOP title is required'` on a falsy title, then
`'At least one step is required'` on an empty list, otherwise produces
the paginated rows and the saved filename. -/
def generateSOPPdf (m : SOPMetadata) (steps : List Step) :
    Except String (List RowPlacement × String) :=
  if m.title = "" then .error "SOP title is required"
  else if steps.length = 0 then .error "At least one step is required"
  else .ok (paginate steps, landscapeFilename m.title)

/-! ## Symbol resolution

Embeds `getStepSymbol` of `src/components/PDFViewPage.tsx` (lines
43–51), the symbol branch of the landscape `generateSOPPdf` (lines
251–265), and the symbol cell of `generatePdfDirect`. -/

/-- The symbol record returned by `getStepSymbol`: a kind and a CSS
color string. -/
structure StepSymbol where
  type : SymbolType
  color : String
deriving DecidableEq, Repr

/-- `getStepSymbol` of `PDFViewPage.tsx`: depends on the step index
only — `index % 3 === 0` gives quality/red, `=== 1` gives
correctness/black, otherwise tip/black. -/
def getStepSymbol (index : Nat) : StepSymbol :=
  if index % 3 = 0 then ⟨.quality, "red"⟩
  else if index % 3 = 1 then ⟨.correctness, "black"⟩
  else ⟨.tip, "black"⟩

/-- The glyph drawn in the landscape generator's symbol column. -/
inductive Glyph where
  | redCircle
  | blackCircle
  | checkmark
deriving DecidableEq, Repr

/-- Symbol branch of the landscape `generateSOPPdf`
(`const symbolType = i % 3; ...`): red circle, black circle or
checkmark, from the loop index alone. -/
def landscapeStepGlyph (i : Nat) : Glyph :=
  if i % 3 = 0 then .redCircle
  else if i % 3 = 1 then .blackCircle
  else .checkmark

/-- One rendered table row of `PDFViewPage.tsx` (the `steps.map`
body): number, title, key-point line, symbol via `getStepSymbol
index`, and the fixed reason placeholder. -/
structure PdfViewRow where
  number : Nat
  title : String
  keyPoint : String
  symbol : StepSymbol
  reason : String
deriving DecidableEq, Repr

/-- Row construction of `PDFViewPage.tsx`: the symbol cell is
`getStepSymbol(index)` — the step's own `symbolType` is never read. -/
def pdfViewRow (step : Step) (index : Nat) : PdfViewRow :=
  { number := index + 1
    title := step.title
    keyPoint := "1. " ++
      (if step.description ≠ "" then step.description
       else "description for " ++ step.title)
    symbol := getStepSymbol index
    reason := "Ensure quality" }

/-- String name of a symbol kind, as serialized in the source. -/
def symbolTypeStr : SymbolType → String
  | .quality => "quality"
  | .correctness => "correctness"
  | .tip => "tip"
  | .hazard => "hazard"

/-- One row of the `generatePdfDirect` autotable body. -/
structure DirectRow where
  no : Nat
  title : String
  keyPointsCell : String
  symbol : String
  reasons : String
  pictures : String
deriving DecidableEq, Repr

/-- Table-body row of `generatePdfDirect`: the symbol cell is
`step.symbolType || 'quality'` — explicit value when set, constant
`'quality'` otherwise. -/
def directRow (s : Step) (i : Nat) : DirectRow :=
  { no := i + 1
    title := s.title
    keyPointsCell := s.description
    symbol := ((s.symbolType.map symbolTypeStr).getD "quality")
    reasons := if s.reasonWhy = "" then "Ensure quality" else s.reasonWhy
    pictures := if s.imageUrl = "" then "No image" else "Image available" }

/-! ## Portrait generator (`createAndDownloadSopPdf`, second variant)

Embeds lines 372–534 of `src/utils/pdfUtils.ts`.  Image resolution
(`getProxiedImage` + `doc.addImage`) is modelled as an injected
function `resolve : String → Option String`; `none` is the thrown /
caught failure path. -/

/-- Step filter of the portrait generator:
`steps.filter(step => step.title && step.title.trim())`. -/
def validSteps (steps : List Step) : List Step :=
  steps.filter (fun s => s.title != "" && jsTrim s.title != "")

/-- Model of the external jsPDF `splitTextToSize`: greedily packs
space-separated words into lines of at most `w` characters, never
splitting a word.  The embedding only depends on the line count it
produces, not on the exact wrap. -/
def packWords (w : Nat) : List String → String → List String
  | [], cur => [cur]
  | x :: xs, cur =>
    if cur = "" then packWords w xs x
    else if cur.length + 1 + x.length ≤ w then packWords w xs (cur ++ " " ++ x)
    else cur :: packWords w xs x

/-- String entry point of the wrap model. -/
def splitTextToSize (t : String) (w : Nat) : List String :=
  packWords w (jsSplit t ' ') ""

/-- Model of the external jspdf-autotable `lastAutoTable.finalY` after
the metadata table: an opaque constant; layout claims do not depend on
its value. -/
def lastAutoTableFinalY : Nat := 50

/-- Drawing commands emitted by the portrait generator. -/
inductive PCmd where
  | pageBreak
  | textC (x y : Nat) (s : String)
  | imageC (x y w h : Nat) (data : String)
  | rectC (x y w h : Nat)
deriving DecidableEq, Repr

/-- Generator cursor state: current vertical position and page. -/
structure PState where
  y : Nat
  page : Nat
deriving DecidableEq, Repr

/-- Body of the portrait generator's per-step loop (lines 422–516):
page break when `currentY > 240`, step title, optional wrapped
description, optional reason, optional symbol line, then the image
section — page break when `currentY > 180`, the image on success, or
the grey placeholder rectangle plus `'Image not available'` text on
failure — and the 10 mm trailing gap. -/
def portraitStep (resolve : String → Option String) (s : Step) (i : Nat)
    (st : PState) : List PCmd × PState :=
  let y0 := if 240 < st.y then 20 else st.y
  let p0 := if 240 < st.y then st.page + 1 else st.page
  let c0 : List PCmd := if 240 < st.y then [.pageBreak] else []
  let titleCmd : PCmd := .textC 20 y0 ("Step " ++ toString (i + 1) ++ ": " ++ s.title)
  let y1 := y0 + 10
  let dl := splitTextToSize s.description 170
  let descCmds : List PCmd :=
    if jsTrim s.description ≠ "" then
      [.textC 20 y1 (String.intercalate "\n" dl)]
    else []
  let y2 := if jsTrim s.description ≠ "" then y1 + (dl.length * 5 + 5) else y1
  let rl := splitTextToSize s.reasonWhy 165
  let reasonCmds : List PCmd :=
    if jsTrim s.reasonWhy ≠ "" then
      [.textC 20 y2 "Why: ", .textC 30 y2 (String.intercalate "\n" rl)]
    else []
  let y3 := if jsTrim s.reasonWhy ≠ "" then y2 + (rl.length * 5 + 5) else y2
  let symCmds : List PCmd :=
    match s.symbolType with
    | some t => [.textC 20 y3 ("Symbol: " ++ symbolTypeStr t)]
    | none => []
  let y4 := match s.symbolType with
    | some _ => y3 + 7
    | none => y3
  let yb := if 180 < y4 then 20 else y4
  let pb := if 180 < y4 then p0 + 1 else p0
  let imgPre : List PCmd := if 180 < y4 then [.pageBreak] else []
  let imgCmds : List PCmd :=
    if jsTrim s.imageUrl ≠ "" then
      imgPre ++
        (match resolve s.imageUrl with
         | some d => [.imageC 20 yb 160 80 d]
         | none => [.rectC 20 yb 160 40, .textC 100 (yb + 20) "Image not available"])
    else []
  let y5 :=
    if jsTrim s.imageUrl ≠ "" then
      match resolve s.imageUrl with
      | some _ => yb + 95
      | none => yb + 50
    else y4
  let p5 := if jsTrim s.imageUrl ≠ "" then pb else p0
  (c0 ++ [titleCmd] ++ descCmds ++ reasonCmds ++ symCmds ++ imgCmds,
    ⟨y5 + 10, p5⟩)

/-- The portrait generator's loop over the valid steps, returning the
command block emitted for each step in order. -/
def portraitSteps (resolve : String → Option String) :
    List Step → Nat → PState → List (List PCmd)
  | [], _, _ => []
  | s :: rest, i, st =>
    let r := portraitStep resolve s i st
    r.1 :: portraitSteps resolve rest (i + 1) r.2

/-- Filename of the portrait generator (line 519):
`` `${metadata.title.replace(/[^a-z0-9]/gi, '_').toLowerCase()}_sop.pdf` ``. -/
def portraitFilename (title : String) : String :=
  String.mk ((title.data.map (fun c => if c.isAlphanum then c else '_')).map
    Char.toLower) ++ "_sop.pdf"

/-- The portrait `createAndDownloadSopPdf` (lines 372–534): filters the
steps, runs the per-step loop from below the metadata table, and saves
under the sanitized filename.  It performs no emptiness or title
precondition check. -/
def createAndDownloadSopPdf (resolve : String → Option String)
    (m : SOPMetadata) (steps : List Step) : List (List PCmd) × String :=
  (portraitSteps resolve (validSteps steps) 0 ⟨lastAutoTableFinalY + 15, 0⟩,
    portraitFilename m.title)

/-- A command with page breaks and coordinates erased: the visual
content that belongs to a row regardless of where pagination put it. -/
inductive PContent where
  | textK (s : String)
  | imageK (data : String)
  | rectK (w h : Nat)
deriving DecidableEq, Repr

/-- Erase positions and page breaks from a command block. -/
def contentOf (cmds : List PCmd) : List PContent :=
  cmds.filterMap fun c =>
    match c with
    | .pageBreak => none
    | .textC _ _ s => some (.textK s)
    | .imageC _ _ _ _ d => some (.imageK d)
    | .rectC _ _ w h => some (.rectK w h)

/-- The content a step's row carries, as a function of the step, its
index and its own image resolution only. -/
def stepContent (s : Step) (i : Nat) (res : Option String) : List PContent :=
  [.textK ("Step " ++ toString (i + 1) ++ ": " ++ s.title)]
  ++ (if jsTrim s.description ≠ "" then
        [PContent.textK (String.intercalate "\n" (splitTextToSize s.description 170))]
      else [])
  ++ (if jsTrim s.reasonWhy ≠ "" then
        [PContent.textK "Why: ",
         PContent.textK (String.intercalate "\n" (splitTextToSize s.reasonWhy 165))]
      else [])
  ++ (match s.symbolType with
      | some t => [PContent.textK ("Symbol: " ++ symbolTypeStr t)]
      | none => [])
  ++ (if jsTrim s.imageUrl ≠ "" then
        match res with
        | some d => [PContent.imageK d]
        | none => [PContent.rectK 160 40, PContent.textK "Image not available"]
      else [])

/-! ## Shared concrete inputs and helper lemmas -/

/-- A minimal valid step used as a concrete test input. -/
def stepA : Step := ⟨"a", "", none, "", "", ""⟩

/-- A step whose title is whitespace only. -/
def wsStep : Step := ⟨" ", "", none, "", "", ""⟩

/-- A valid step carrying an image reference. -/
def imgStep : Step := ⟨"t", "", none, "", "u", ""⟩

/-- Minimal metadata with a non-empty title. -/
def metaT : SOPMetadata := ⟨"T", "", "", "", "", "", ""⟩

/-- The pagination loop renders the step indices `i, i+1, …` in input
order, one row per step, whatever the cursor state. -/
theorem paginateAux_map_stepIndex (numSteps : Nat) :
    ∀ (l : List Step) (i page y : Nat),
      (paginateAux numSteps l i page y).map RowPlacement.stepIndex
        = List.range' i l.length := by
  intro l
  induction l with
  | nil => intro i page y; rfl
  | cons s rest ih =>
    intro i page y
    simp only [paginateAux]
    split <;> simp [ih, List.range'_succ]

/-- Every row height produced by the landscape generator is at least
30. -/
theorem calculatedRowHeight_ge_30 (numSteps : Nat) (desc : String) :
    30 ≤ calculatedRowHeight numSteps desc :=
  le_trans (le_max_left 30 _) (le_max_left _ _)

/-! ## C1 -/

/-- C1: for every non-empty list of steps with non-empty titles, the
pagination loop of `generateSOPPdf` places every input step in exactly
one row, no step dropped or duplicated, in input order: the rendered
step indices are exactly `0, 1, …, steps.length - 1`. -/
theorem paginate_places_each_step_once (steps : List Step)
    (hne : steps ≠ []) (htitles : ∀ s ∈ steps, s.title ≠ "") :
    (paginate steps).map RowPlacement.stepIndex = List.range steps.length := by
  rw [List.range_eq_range']
  exact paginateAux_map_stepIndex steps.length steps 0 0 firstPageRowStart

/-- Witness for C1 at a concrete one-step list. -/
theorem paginate_places_each_step_once_witness :
    (paginate [stepA]).map RowPlacement.stepIndex = List.range 1 :=
  paginate_places_each_step_once [stepA] (by decide) (by decide)

/-! ## C3 -/

/-- C3: the landscape row height is `max` of the base minimum and
`numKeyPoints * 25`, where `numKeyPoints` is `max 1` of the number of
non-empty newline-separated description segments; consequently the row
height is monotonically non-decreasing in the key-point count, all
other inputs held constant. -/
theorem rowHeight_formula_and_monotone (numSteps : Nat) (d d' : String) :
    calculatedRowHeight numSteps d
        = max (baseRowHeight numSteps) (numKeyPoints d * 25)
      ∧ numKeyPoints d = max 1 ((jsSplit d '\n').filter (fun l => l ≠ "")).length
      ∧ (numKeyPoints d ≤ numKeyPoints d' →
          calculatedRowHeight numSteps d ≤ calculatedRowHeight numSteps d') := by
  refine ⟨rfl, rfl, fun h => ?_⟩
  exact max_le_max le_rfl (Nat.mul_le_mul_right 25 h)

/-- Witness for C3: one key point versus two. -/
theorem rowHeight_formula_and_monotone_witness :
    calculatedRowHeight 1 "a" ≤ calculatedRowHeight 1 "a\nb" :=
  (rowHeight_formula_and_monotone 1 "a" "a\nb").2.2 (by decide)

/-! ## C4 -/

/-- C4: the fallback symbol assignment is the fixed cycle
quality/red (index ≡ 0), correctness/black (≡ 1), tip (≡ 2) with
period 3, both in `getStepSymbol` of the print view and in the glyph
branch of the landscape generator, and it never yields the hazard
symbol. -/
theorem fallback_symbol_cycle (i : Nat) :
    getStepSymbol (i + 3) = getStepSymbol i
    ∧ (getStepSymbol i).type ≠ SymbolType.hazard
    ∧ getStepSymbol 0 = ⟨.quality, "red"⟩
    ∧ getStepSymbol 1 = ⟨.correctness, "black"⟩
    ∧ getStepSymbol 2 = ⟨.tip, "black"⟩
    ∧ landscapeStepGlyph (i + 3) = landscapeStepGlyph i
    ∧ landscapeStepGlyph 0 = .redCircle
    ∧ landscapeStepGlyph 1 = .blackCircle
    ∧ landscapeStepGlyph 2 = .checkmark := by
  have hmod : (i + 3) % 3 = i % 3 := by omega
  have h3 : i % 3 = 0 ∨ i % 3 = 1 ∨ i % 3 = 2 := by omega
  refine ⟨?_, ?_, by decide, by decide, by decide, ?_, by decide, by decide,
    by decide⟩
  · simp [getStepSymbol, hmod]
  · rcases h3 with h | h | h <;> simp [getStepSymbol, h]
  · simp [landscapeStepGlyph, hmod]

/-- Witness for C4 at index 2: period 3 and no hazard. -/
theorem fallback_symbol_cycle_witness :
    getStepSymbol (2 + 3) = getStepSymbol 2
    ∧ (getStepSymbol 2).type ≠ SymbolType.hazard :=
  ⟨(fallback_symbol_cycle 2).1, (fallback_symbol_cycle 2).2.1⟩

/-! ## C8 -/

/-- C8: the overflow test of the pagination loop is strict: a step
whose row height exactly fills the remaining space of the current page
is placed on that page at the current cursor, and no page break
happens. -/
theorem exact_fit_stays_on_page (numSteps : Nat) (s : Step)
    (rest : List Step) (i page y : Nat)
    (hfit : y + calculatedRowHeight numSteps s.description = pageUsableBottom) :
    paginateAux numSteps (s :: rest) i page y
      = ⟨i, page, y, calculatedRowHeight numSteps s.description⟩ ::
          paginateAux numSteps rest (i + 1) page pageUsableBottom := by
  simp [paginateAux, hfit]

/-- Witness for C8: a 30-high row at cursor 150 exactly fills up to
180 and stays on page 0. -/
theorem exact_fit_stays_on_page_witness :
    paginateAux 1 [stepA] 0 0 150
      = [⟨0, 0, 150, calculatedRowHeight 1 stepA.description⟩] :=
  exact_fit_stays_on_page 1 stepA [] 0 0 150 (by decide)

/-! ## C10 -/

/-- C10: in the landscape generator the base row height is
`max 30 (20 + 10 * steps.length)`, so a fixed step's row height
strictly grows with the length of the list it sits in (here for
single-key-point steps in any list of at least one step); concretely,
the very same step list element is paginated differently in a longer
list. -/
theorem rowHeight_depends_on_list_length (s : Step) (l l' : List Step) :
    (numKeyPoints s.description = 1 → 1 ≤ l.length → l.length < l'.length →
      calculatedRowHeight l.length s.description
        < calculatedRowHeight l'.length s.description)
    ∧ (paginate (List.replicate 6 stepA)).head? = some ⟨0, 0, 98, 80⟩
    ∧ (paginate (List.replicate 9 stepA)).head? = some ⟨0, 1, 42, 110⟩ := by
  refine ⟨fun h1 hl hll => ?_, by decide, by decide⟩
  unfold calculatedRowHeight baseRowHeight
  rw [h1]
  simp only [Nat.max_def]
  split_ifs <;> omega

/-- Witness for C10: the same one-key-point step gets height 30 in a
one-step list and height 40 in a two-step list. -/
theorem rowHeight_depends_on_list_length_witness :
    calculatedRowHeight [stepA].length stepA.description
      < calculatedRowHeight [stepA, stepA].length stepA.description :=
  (rowHeight_depends_on_list_length stepA [stepA] [stepA, stepA]).1
    (by decide) (by decide) (by decide)

/-! ## C2: within-page layout invariant

`Chained p y rows` says `rows` is a run of placements the loop can emit
starting on page `p` with the cursor at `y`: each row either fits on
the current page at the cursor, or is force-placed at the top of the
next page. -/

/-- Inductive characterization of the row lists the pagination loop
emits from a given cursor state. -/
inductive Chained : Nat → Nat → List RowPlacement → Prop where
  | nil (p y : Nat) : Chained p y []
  | fit {p y : Nat} {r : RowPlacement} {rest : List RowPlacement}
      (hfit : y + r.height ≤ pageUsableBottom) (htop : r.top = y)
      (hpage : r.page = p) (hh : 30 ≤ r.height)
      (hrest : Chained p (y + r.height) rest) : Chained p y (r :: rest)
  | newpage {p y : Nat} {r : RowPlacement} {rest : List RowPlacement}
      (hbig : pageUsableBottom < y + r.height) (htop : r.top = contPageRowStart)
      (hpage : r.page = p + 1) (hh : 30 ≤ r.height)
      (hrest : Chained (p + 1) (contPageRowStart + r.height) rest) :
      Chained p y (r :: rest)

/-- The pagination loop only emits chained row lists. -/
theorem chained_paginateAux (numSteps : Nat) :
    ∀ (l : List Step) (i page y : Nat),
      Chained page y (paginateAux numSteps l i page y) := by
  intro l
  induction l with
  | nil => intro i page y; exact .nil page y
  | cons s rest ih =>
    intro i page y
    simp only [paginateAux]
    split
    · exact .newpage (by assumption) rfl rfl
        (calculatedRowHeight_ge_30 numSteps s.description) (ih _ _ _)
    · exact .fit
        (show y + calculatedRowHeight numSteps s.description
            ≤ pageUsableBottom by omega) rfl rfl
        (calculatedRowHeight_ge_30 numSteps s.description) (ih _ _ _)

/-- After its head row, a chained run continues from that row's page
and bottom edge. -/
theorem Chained.cons_tail {p y : Nat} {r : RowPlacement}
    {rest : List RowPlacement} (h : Chained p y (r :: rest)) :
    Chained r.page (r.top + r.height) rest := by
  cases h with
  | fit hfit htop hpage hh hrest => rw [htop, hpage]; exact hrest
  | newpage hbig htop hpage hh hrest => rw [htop, hpage]; exact hrest

/-- The head of a chained run is either at the cursor on the current
page, or at the top of the next page. -/
theorem Chained.head_shape {p y : Nat} {r : RowPlacement}
    {rest : List RowPlacement} (h : Chained p y (r :: rest)) :
    (r.page = p ∧ r.top = y) ∨ (r.page = p + 1 ∧ r.top = contPageRowStart) := by
  cases h with
  | fit hfit htop hpage hh hrest => exact .inl ⟨hpage, htop⟩
  | newpage hbig htop hpage hh hrest => exact .inr ⟨hpage, htop⟩

/-- Head row of a chained run is at least 30 high. -/
theorem Chained.head_height {p y : Nat} {r : RowPlacement}
    {rest : List RowPlacement} (h : Chained p y (r :: rest)) :
    30 ≤ r.height := by
  cases h with
  | fit hfit htop hpage hh hrest => exact hh
  | newpage hbig htop hpage hh hrest => exact hh

/-- In a chained run, every row's bottom edge stays within the page,
except a row force-placed at the top of a fresh page whose height alone
overflows it. -/
theorem Chained.bottoms {p y : Nat} {l : List RowPlacement}
    (h : Chained p y l) :
    ∀ (j : Nat) (hj : j < l.length),
      (l.get ⟨j, hj⟩).top + (l.get ⟨j, hj⟩).height ≤ pageUsableBottom
      ∨ ((l.get ⟨j, hj⟩).top = contPageRowStart
          ∧ pageUsableBottom < contPageRowStart + (l.get ⟨j, hj⟩).height) := by
  induction l generalizing p y with
  | nil => intro j hj; exact absurd hj (by simp)
  | cons r rest ih =>
    intro j hj
    match j with
    | 0 =>
      show r.top + r.height ≤ pageUsableBottom
        ∨ (r.top = contPageRowStart
            ∧ pageUsableBottom < contPageRowStart + r.height)
      cases h with
      | fit hfit htop hpage hh hrest =>
        exact .inl (by rw [htop]; exact hfit)
      | newpage hbig htop hpage hh hrest =>
        by_cases hb : contPageRowStart + r.height ≤ pageUsableBottom
        · exact .inl (by rw [htop]; exact hb)
        · exact .inr ⟨htop, by omega⟩
    | Nat.succ j' =>
      exact ih h.cons_tail j' (Nat.lt_of_succ_lt_succ hj)

/-- The first two rows of a chained run: if they share a page they abut
exactly with strictly increasing tops, and the second row's page is the
first's or its successor. -/
theorem Chained.two_heads {p y : Nat} {r r' : RowPlacement}
    {rest : List RowPlacement} (h : Chained p y (r :: r' :: rest)) :
    (r'.page = r.page → r'.top = r.top + r.height ∧ r.top < r'.top)
    ∧ (r'.page = r.page ∨ r'.page = r.page + 1) := by
  have hh := h.head_height
  have htail := h.cons_tail
  rcases htail.head_shape with ⟨hpage, htop⟩ | ⟨hpage, htop⟩
  · exact ⟨fun _ => ⟨htop, by omega⟩, .inl hpage⟩
  · exact ⟨fun heq => by omega, .inr hpage⟩

/-- In a chained run, consecutive rows on the same page abut exactly
(next top = previous top + previous height) with strictly increasing
tops, and page numbers never decrease (they step by 0 or 1). -/
theorem Chained.adjacent {p y : Nat} {l : List RowPlacement}
    (h : Chained p y l) :
    ∀ (k : Nat) (hk : k + 1 < l.length),
      ((l.get ⟨k + 1, hk⟩).page = (l.get ⟨k, Nat.lt_of_succ_lt hk⟩).page →
        (l.get ⟨k + 1, hk⟩).top
            = (l.get ⟨k, Nat.lt_of_succ_lt hk⟩).top
              + (l.get ⟨k, Nat.lt_of_succ_lt hk⟩).height
          ∧ (l.get ⟨k, Nat.lt_of_succ_lt hk⟩).top < (l.get ⟨k + 1, hk⟩).top)
      ∧ ((l.get ⟨k + 1, hk⟩).page = (l.get ⟨k, Nat.lt_of_succ_lt hk⟩).page
          ∨ (l.get ⟨k + 1, hk⟩).page
              = (l.get ⟨k, Nat.lt_of_succ_lt hk⟩).page + 1) := by
  induction l generalizing p y with
  | nil => intro k hk; exact absurd hk (by simp)
  | cons r rest ih =>
    intro k hk
    cases rest with
    | nil => exact absurd hk (by simp)
    | cons r' rest' =>
      match k with
      | 0 => exact h.two_heads
      | Nat.succ k' =>
        exact ih h.cons_tail k' (Nat.lt_of_succ_lt_succ hk)

/-- C2: within each landscape page the rows placed by `generateSOPPdf`
are strictly increasing in top offset and abut exactly (no overlap),
page numbers never decrease along the output, and every row's bottom
edge stays within the usable height 180 except a row forced onto a
fresh page whose own height exceeds the fresh page's usable space. -/
theorem paginate_rows_sorted_and_bounded (steps : List Step) :
    (∀ (k : Nat) (hk : k + 1 < (paginate steps).length),
      (((paginate steps).get ⟨k + 1, hk⟩).page
          = ((paginate steps).get ⟨k, Nat.lt_of_succ_lt hk⟩).page →
        ((paginate steps).get ⟨k + 1, hk⟩).top
            = ((paginate steps).get ⟨k, Nat.lt_of_succ_lt hk⟩).top
              + ((paginate steps).get ⟨k, Nat.lt_of_succ_lt hk⟩).height
          ∧ ((paginate steps).get ⟨k, Nat.lt_of_succ_lt hk⟩).top
              < ((paginate steps).get ⟨k + 1, hk⟩).top)
      ∧ (((paginate steps).get ⟨k + 1, hk⟩).page
            = ((paginate steps).get ⟨k, Nat.lt_of_succ_lt hk⟩).page
          ∨ ((paginate steps).get ⟨k + 1, hk⟩).page
              = ((paginate steps).get ⟨k, Nat.lt_of_succ_lt hk⟩).page + 1))
    ∧ (∀ (j : Nat) (hj : j < (paginate steps).length),
        ((paginate steps).get ⟨j, hj⟩).top
            + ((paginate steps).get ⟨j, hj⟩).height ≤ pageUsableBottom
        ∨ (((paginate steps).get ⟨j, hj⟩).top = contPageRowStart
            ∧ pageUsableBottom
                < contPageRowStart + ((paginate steps).get ⟨j, hj⟩).height)) := by
  have hchain : Chained 0 firstPageRowStart (paginate steps) :=
    chained_paginateAux steps.length steps 0 0 firstPageRowStart
  exact ⟨hchain.adjacent, hchain.bottoms⟩

/-- Witness for C2 on a concrete two-step list: the two rows share page
0, abut at 98 + 40 = 138, and the first row's bottom edge 138 stays
within 180. -/
theorem paginate_rows_sorted_and_bounded_witness :
    (((paginate [stepA, stepA]).get ⟨1, by decide⟩).top
        = ((paginate [stepA, stepA]).get ⟨0, by decide⟩).top
          + ((paginate [stepA, stepA]).get ⟨0, by decide⟩).height
      ∧ ((paginate [stepA, stepA]).get ⟨0, by decide⟩).top
          < ((paginate [stepA, stepA]).get ⟨1, by decide⟩).top)
    ∧ (((paginate [stepA, stepA]).get ⟨0, by decide⟩).top
          + ((paginate [stepA, stepA]).get ⟨0, by decide⟩).height
            ≤ pageUsableBottom
        ∨ (((paginate [stepA, stepA]).get ⟨0, by decide⟩).top = contPageRowStart
            ∧ pageUsableBottom < contPageRowStart
                + ((paginate [stepA, stepA]).get ⟨0, by decide⟩).height)) :=
  ⟨((paginate_rows_sorted_and_bounded [stepA, stepA]).1 0 (by decide)).1
      (by decide),
    (paginate_rows_sorted_and_bounded [stepA, stepA]).2 0 (by decide)⟩

/-! ## C5 -/

/-- A step whose `symbolType` is explicitly set to hazard. -/
def hazardStep : Step := ⟨"t", "", some .hazard, "", "", ""⟩

/-- Counterexample to C5: it is not true that a step with an explicit
`symbolType` displays that symbol — `PDFViewPage` resolves the symbol
from the index alone, so the hazard-marked step at index 0 shows the
quality symbol. -/
theorem explicit_symbol_not_used_counterexample :
    ¬ (∀ (s : Step) (i : Nat) (t : SymbolType),
        s.symbolType = some t → (pdfViewRow s i).symbol.type = t) := by
  intro hclaim
  have := hclaim hazardStep 0 .hazard rfl
  exact absurd this (by decide)

/-- C5 (amended): in `PDFViewPage` the displayed symbol is a function
of the step index alone — the index cycle is always applied and an
explicit `symbolType` is ignored; only `generatePdfDirect` uses the
explicit `symbolType` directly, and its fallback when unset is the
constant `'quality'`, not the index cycle. -/
theorem symbol_resolution_by_variant (s s' : Step) (i : Nat)
    (t : SymbolType) :
    (pdfViewRow s i).symbol = (pdfViewRow s' i).symbol
    ∧ (pdfViewRow s i).symbol = getStepSymbol i
    ∧ (s.symbolType = some t → (directRow s i).symbol = symbolTypeStr t)
    ∧ (s.symbolType = none → (directRow s i).symbol = "quality") := by
  refine ⟨rfl, rfl, fun h => ?_, fun h => ?_⟩
  · simp [directRow, h]
  · simp [directRow, h]

/-- Witness for C5 (amended) at the hazard-marked step. -/
theorem symbol_resolution_by_variant_witness :
    (pdfViewRow hazardStep 0).symbol = getStepSymbol 0
    ∧ (directRow hazardStep 0).symbol = symbolTypeStr .hazard :=
  ⟨(symbol_resolution_by_variant hazardStep stepA 0 .hazard).2.1,
    (symbol_resolution_by_variant hazardStep stepA 0 .hazard).2.2.1 rfl⟩

/-! ## C6 -/

/-- The portrait loop emits exactly one command block per step, for any
starting index and cursor state. -/
theorem portraitSteps_length (resolve : String → Option String) :
    ∀ (l : List Step) (i : Nat) (st : PState),
      (portraitSteps resolve l i st).length = l.length := by
  intro l
  induction l with
  | nil => intro i st; rfl
  | cons s rest ih => intro i st; simp [portraitSteps, ih]

/-- Counterexample to C6: a list holding one whitespace-titled step is
empty after dropping invalid steps, yet `generateSOPPdf` does not
refuse — its length check runs on the raw list — and it produces a
complete document for the junk step. -/
theorem empty_valid_steps_not_refused_counterexample :
    validSteps [wsStep] = []
    ∧ generateSOPPdf metaT [wsStep]
        = .ok ([⟨0, 0, 98, 30⟩], "T_SOP.pdf") := by
  exact ⟨by decide, by rfl⟩

/-- C6 (amended): `generateSOPPdf` refuses with an error, before any
layout, exactly when `metadata.title` is empty or the raw step list is
empty — whitespace-only-titled steps still count as present; the
portrait `createAndDownloadSopPdf` drops invalid steps but proceeds
even when none remain, emitting a block per remaining valid step (zero
blocks included) rather than refusing. -/
theorem export_refusal_conditions (m : SOPMetadata) (steps : List Step)
    (resolve : String → Option String) :
    ((generateSOPPdf m steps).isOk ↔ (m.title ≠ "" ∧ steps ≠ []))
    ∧ (createAndDownloadSopPdf resolve m steps).1.length
        = (validSteps steps).length := by
  constructor
  · unfold generateSOPPdf
    split
    · simp_all [Except.isOk, Except.toBool]
    · split
      · simp_all [Except.isOk, Except.toBool, List.length_eq_zero]
      · simp_all [Except.isOk, Except.toBool, List.length_eq_zero]
  · exact portraitSteps_length resolve (validSteps steps) 0 _

/-- Witness for C6 (amended) at concrete inputs: a valid one-step list
is not refused and the portrait output has one block per valid step. -/
theorem export_refusal_conditions_witness :
    (generateSOPPdf metaT [stepA]).isOk = true
    ∧ (createAndDownloadSopPdf (fun _ => none) metaT [stepA]).1.length
        = (validSteps [stepA]).length :=
  ⟨(export_refusal_conditions metaT [stepA] (fun _ => none)).1.mpr
      ⟨by decide, by decide⟩,
    (export_refusal_conditions metaT [stepA] (fun _ => none)).2⟩

/-! ## C9 -/

/-- Counterexample to C9: the landscape generator's saved filename for
the title `"My SOP!"` keeps the non-alphanumeric `'!'` and the
uppercase letters — the title is neither fully sanitized nor
lowercased on that path (only whitespace runs become underscores). -/
theorem landscape_filename_not_sanitized_counterexample :
    landscapeFilename "My SOP!" = "My_SOP!_SOP.pdf"
    ∧ '!' ∈ (landscapeFilename "My SOP!").data
    ∧ 'M' ∈ (landscapeFilename "My SOP!").data := by
  exact ⟨by decide, by decide, by decide⟩

/-- C9 (amended): each export path derives its filename
deterministically from the title — equal titles give equal filenames —
but only the portrait path replaces every non-alphanumeric character
with `'_'`, lowercases, and appends `'_sop.pdf'`; the landscape path
only collapses whitespace runs to `'_'`, keeps other characters
unchanged, and appends `'_SOP.pdf'`. -/
theorem filename_derivation_by_variant (t t' : String) :
    (t = t' →
      landscapeFilename t = landscapeFilename t'
      ∧ portraitFilename t = portraitFilename t')
    ∧ portraitFilename "My SOP!" = "my_sop__sop.pdf"
    ∧ landscapeFilename "My SOP!" = "My_SOP!_SOP.pdf" := by
  exact ⟨fun h => by rw [h]; exact ⟨rfl, rfl⟩, by decide, by decide⟩

/-- Witness for C9 (amended) at a concrete repeated title. -/
theorem filename_derivation_by_variant_witness :
    landscapeFilename "Assembly A" = landscapeFilename "Assembly A"
    ∧ portraitFilename "Assembly A" = portraitFilename "Assembly A" :=
  (filename_derivation_by_variant "Assembly A" "Assembly A").1 rfl

/-! ## C7 -/

/-- The content a portrait step block carries is a function of the
step, its index and its own image resolution only — the cursor state
(and hence everything emitted for earlier steps) only moves the block,
never changes its content. -/
theorem contentOf_portraitStep (resolve : String → Option String)
    (s : Step) (i : Nat) (st : PState) :
    contentOf (portraitStep resolve s i st).1
      = stepContent s i (resolve s.imageUrl) := by
  simp only [portraitStep, stepContent, contentOf, List.filterMap_append]
  split_ifs <;>
    cases s.symbolType <;>
      cases resolve s.imageUrl <;>
        simp [List.filterMap_cons, List.filterMap_nil]

/-- The portrait loop's emitted blocks, after erasing positions and
page breaks, are exactly the per-step contents in input order. -/
theorem portraitSteps_content (resolve : String → Option String) :
    ∀ (l : List Step) (i : Nat) (st : PState),
      (portraitSteps resolve l i st).map contentOf
        = (List.enumFrom i l).map
            (fun p => stepContent p.2 p.1 (resolve p.2.imageUrl)) := by
  intro l
  induction l with
  | nil => intro i st; rfl
  | cons s rest ih =>
    intro i st
    simp only [portraitSteps, List.map_cons, List.enumFrom_cons]
    exact congrArg₂ _ (contentOf_portraitStep resolve s i st) (ih _ _)

/-- C7: the portrait generator never aborts on a per-step image
failure — it emits one block per valid step whatever the resolver
does, each block's content is determined by that step, its index and
its own image resolution alone (so a failure leaves every other row's
content unchanged), and a step with an image reference whose
resolution fails gets the placeholder rectangle and the
`'Image not available'` text in its own block. -/
theorem image_failure_isolated (resolve : String → Option String)
    (m : SOPMetadata) (steps : List Step) :
    ((createAndDownloadSopPdf resolve m steps).1.map contentOf
      = (List.enumFrom 0 (validSteps steps)).map
          (fun p => stepContent p.2 p.1 (resolve p.2.imageUrl)))
    ∧ (∀ (s : Step) (i : Nat), jsTrim s.imageUrl ≠ "" →
        resolve s.imageUrl = none →
          PContent.textK "Image not available"
              ∈ stepContent s i (resolve s.imageUrl)
            ∧ PContent.rectK 160 40 ∈ stepContent s i (resolve s.imageUrl)) := by
  constructor
  · exact portraitSteps_content resolve (validSteps steps) 0 _
  · intro s i himg hres
    rw [hres]
    unfold stepContent
    constructor <;> simp [himg]

/-- Witness for C7: a concrete one-step document whose image fails to
resolve carries the placeholder text in its block content. -/
theorem image_failure_isolated_witness :
    PContent.textK "Image not available"
        ∈ stepContent imgStep 0 ((fun _ => none) imgStep.imageUrl)
      ∧ PContent.rectK 160 40
        ∈ stepContent imgStep 0 ((fun _ => none) imgStep.imageUrl) :=
  (image_failure_isolated (fun _ => none) metaT [imgStep]).2 imgStep 0
    (by decide) rfl

end SopApp
